import Mathlib

/-!
Verification of the document-to-answer RAG pipeline (`rag.py`, `api.py`).

External collaborators (the langchain document loaders, the Chroma vector
store, the Groq chat model) are black boxes at the interface boundary; they
appear here as oracle parameters (`Except`-valued results and a prompt-to-text
function).  Python exceptions are modelled as a class name paired with the
message string, since that is all the source inspects.
-/

namespace RagSpec

/-- A langchain `Document`: text content plus a metadata dictionary.
The dictionary is modelled as a partial map from keys to values. -/
structure Doc where
  page_content : String
  metadata : String → Option String

/-- A raised Python exception, as observed by callers: its class name
(`type(e).__name__`) and its message (`str(e)`). -/
structure PyExn where
  cls : String
  msg : String
deriving DecidableEq

/-- The error class of a failed call, `none` on success. -/
def exnClass {α : Type} : Except PyExn α → Option String
  | .error e => some e.cls
  | .ok _ => none

/-- Python `str.lower()` (character-wise lowercasing, which on ASCII file
extensions agrees with full case folding). -/
def strLower (s : String) : String := ⟨s.data.map Char.toLower⟩

/-- Extensions dispatched to a concrete loader in `load_document`
(`rag.py` lines 67-76). -/
def supportedExts : List String := [".pdf", ".csv", ".xlsx", ".docx", ".txt"]

/-- The metadata-stamping loop of `load_document` (`rag.py` lines 83-87):
`doc.metadata['source'] = file_path.name; doc.metadata['file_type'] = extension`. -/
def stampMeta (name ext : String) (d : Doc) : Doc :=
  { d with metadata := fun k =>
      if k = "file_type" then some ext
      else if k = "source" then some name
      else d.metadata k }

/-- `load_document` (`rag.py` lines 58-92).  `name` is `file_path.name`,
`suffix` is `file_path.suffix`; `loaderResult` abstracts `loader.load()` for
the loader selected by the extension (the five supported branches differ only
in which external loader class they construct, so one oracle covers them).
The body's `raise ValueError(f"Unsupported file type: ...")` and any loader
failure are both caught by the blanket `except Exception` at line 91 and
re-raised as a bare `Exception` wrapping `str(e)` into
`f"Error loading NAME: ..."`. -/
def loadDocument (name suffix : String) (loaderResult : Except String (List Doc)) :
    Except PyExn (List Doc) :=
  let extension := strLower suffix
  if extension ∈ supportedExts then
    match loaderResult with
    | .ok docs => .ok (docs.map (stampMeta name extension))
    | .error e => .error ⟨"Exception", "Error loading " ++ name ++ ": " ++ e⟩
  else
    .error ⟨"Exception",
      "Error loading " ++ name ++ ": " ++ "Unsupported file type: " ++ extension⟩

/-! ### Chunker

The splitter itself lives in the external `langchain_text_splitters` package;
`process_documents` (`rag.py` lines 127-134) only configures it.  The
definitions below are therefore modelled from the spec (section 4.2): split on
a prioritized separator list from coarsest to finest, falling back to the next
separator only while a piece still exceeds `CHUNK_SIZE`; merge small adjacent
pieces back together up to `CHUNK_SIZE`, carrying up to `CHUNK_OVERLAP`
trailing characters over into the next chunk; drop empty chunks. -/

/-- `rag.py` line 23. -/
def CHUNK_SIZE : Nat := 1000

/-- `rag.py` line 24. -/
def CHUNK_OVERLAP : Nat := 200

/-- The separator hierarchy configured at `rag.py` line 128:
paragraph break, line break, sentence punctuation, clause punctuation, space. -/
def SEPARATORS : List (List Char) :=
  [['\n', '\n'], ['\n'], ['.', ' '], ['!', ' '], ['?', ' '], [';', ' '],
   [',', ' '], [' ']]

/-- Boolean test that `s` begins the list `l`. -/
def leadMatch : List Char → List Char → Bool
  | [], _ => true
  | _ :: _, [] => false
  | a :: s, b :: t => a = b && leadMatch s t

/-- Modelled from the spec: greedy left-to-right split of a text on one
separator occurrence pattern; `acc` holds the (reversed) piece being built.
The separator is dropped from the pieces. -/
def splitOnAux (sep : List Char) : List Char → List Char → List (List Char)
  | [], acc => [acc.reverse]
  | a :: l, acc =>
    if h : sep ≠ [] ∧ leadMatch sep (a :: l) then
      acc.reverse :: splitOnAux sep (List.drop sep.length (a :: l)) []
    else
      splitOnAux sep l (a :: acc)
termination_by l _ => l.length
decreasing_by
  · have hs : 0 < sep.length := List.length_pos.mpr h.1
    simp only [List.length_drop, List.length_cons]
    omega
  · simp

/-- Split a text on every occurrence of one separator. -/
def splitOn (sep text : List Char) : List (List Char) := splitOnAux sep text []

/-- Modelled from the spec (section 4.2): recursively split a text that
exceeds `CHUNK_SIZE`, trying separators from coarsest to finest; a text that
none of the remaining separators can split is returned whole even when it is
oversized. -/
def recSplit : List (List Char) → List Char → List (List Char)
  | [], text => [text]
  | s :: rest, text =>
    if text.length ≤ CHUNK_SIZE then [text]
    else ((splitOn s text).map fun p => recSplit rest p).flatten

/-- Combined character count of the pieces in the running merge window. -/
def wTotal (w : List (List Char)) : Nat := (w.map List.length).sum

/-- Modelled from the spec: before appending a piece of length `dlen` to the
merge window, drop leading window pieces while the retained text exceeds
`CHUNK_OVERLAP` or would not leave room for the new piece within
`CHUNK_SIZE`. -/
def popWhile (dlen : Nat) : List (List Char) → List (List Char)
  | [] => []
  | p :: ps =>
    if CHUNK_OVERLAP < wTotal (p :: ps) ∨
        (CHUNK_SIZE < wTotal (p :: ps) + dlen ∧ 0 < wTotal (p :: ps)) then
      popWhile dlen ps
    else p :: ps

/-- Modelled from the spec: merge the split pieces into chunks of at most
`CHUNK_SIZE` characters, flushing the window when the next piece would not
fit and carrying overlap context forward; an oversized (unsplittable) piece
is emitted as a chunk of its own. -/
def mergeLoop : List (List Char) → List (List Char) → List (List Char)
  | [], w => if w = [] then [] else [w.flatten]
  | d :: ds, w =>
    if CHUNK_SIZE < d.length then
      (if w = [] then [] else [w.flatten]) ++ d :: mergeLoop ds []
    else if CHUNK_SIZE < wTotal w + d.length ∧ w ≠ [] then
      w.flatten :: mergeLoop ds (popWhile d.length w ++ [d])
    else
      mergeLoop ds (w ++ [d])

/-- Modelled from the spec: split one text into chunks using the separator
hierarchy, then merge; empty chunks are discarded. -/
def chunkText (text : List Char) : List (List Char) :=
  (mergeLoop (recSplit SEPARATORS text) []).filter fun c => !c.isEmpty

/-- Modelled from the spec: `splitter.split_documents` (`rag.py` line 134) —
chunk every segment's text, each chunk inheriting its segment's metadata
unmodified. -/
def splitDocuments (docs : List Doc) : List Doc :=
  docs.flatMap fun d =>
    (chunkText d.page_content.data).map fun cs =>
      { page_content := String.mk cs, metadata := d.metadata }

/-! ### Ingestion orchestrator: `process_documents` (`rag.py` lines 95-152) -/

/-- Python's thousands-separated rendering of a number, as in
`f"TOTAL:,"` formatting: digits grouped by three from the right.
Works on the reversed digit list; `k` counts digits left in the group. -/
def commaRev : List Char → Nat → List Char
  | [], _ => []
  | c :: cs, k =>
    if k = 0 then ',' :: c :: commaRev cs 2
    else c :: commaRev cs (k - 1)

/-- Python `f"N:,"`-style comma formatting of a natural number. -/
def fmtComma (n : Nat) : String := ⟨(commaRev (toString n).data.reverse 3).reverse⟩

/-- One file handed to `process_documents`: its basename, its extension, and
the oracle result of the external loader chosen for it. -/
structure IngestFile where
  name : String
  suffix : String
  loaderResult : Except String (List Doc)

/-- The `load_document(file_path)` call made for one batch file
(`rag.py` line 112). -/
def loadResult (f : IngestFile) : Except PyExn (List Doc) :=
  loadDocument f.name f.suffix f.loaderResult

/-- The progress message the per-file loop emits for one file
(`rag.py` lines 114 and 116). -/
def fileMsg (f : IngestFile) : String :=
  match loadResult f with
  | .ok docs => "✓ Loaded " ++ f.name ++ " (" ++ toString docs.length ++ " sections)"
  | .error e => "✗ Failed to load " ++ f.name ++ ": " ++ e.msg

/-- The segments one file contributes to `all_documents`
(`rag.py` line 113); a failed load contributes nothing. -/
def loadedDocs (f : IngestFile) : List Doc :=
  match loadResult f with
  | .ok docs => docs
  | .error _ => []

/-- `process_documents` (`rag.py` lines 95-152), as the pair of the full
progress stream it yields and the final contents of the knowledge-base
collection.  `store₀` is the collection's content on entry; line 104
(`vector_store.reset_collection()`) empties it before any file is touched.
`storeResult` abstracts the outcome of `vector_store.add_documents`; a
failed add leaves the reset collection in the model (partial writes by the
store engine are below the interface boundary). -/
def processDocuments (files : List IngestFile) (storeResult : Except String Unit)
    (store₀ : List Doc) : List String × List Doc :=
  let header := ["Initializing AI components...",
                 "Clearing previous knowledge base...",
                 "Loading " ++ toString files.length ++ " document(s)..."]
  let loadMsgs := files.map fileMsg
  let allDocuments := files.flatMap loadedDocs
  if allDocuments.isEmpty then
    (header ++ loadMsgs ++ ["✗ No documents loaded successfully"], [])
  else
    let totalChars := (allDocuments.map fun d => d.page_content.length).sum
    let m := header ++ loadMsgs ++
      ["✓ Total content loaded: " ++ fmtComma totalChars ++ " characters",
       "Splitting documents into semantic chunks..."]
    let chunks := splitDocuments allDocuments
    if chunks.isEmpty then (m ++ ["✗ Failed to create text chunks"], [])
    else
      let m := m ++ ["✓ Created " ++ toString chunks.length ++ " chunks",
                     "Generating embeddings and storing in vector database..."]
      match storeResult with
      | .ok _ =>
        (m ++ ["✓ SUCCESS! Knowledge base ready with " ++
               toString chunks.length ++ " chunks"], chunks)
      | .error e => (m ++ ["✗ Storage error: " ++ e], [])

/-! ### Query path: `generate_answer` (`rag.py` lines 155-243) -/

/-- The distance threshold of the relevance filter (`rag.py` line 191). -/
def RELEVANCE_THRESHOLD : ℚ := 5 / 2

/-- The oracle environment of one `generate_answer` call: whether the global
`vector_store` has been initialized, and the results of the three external
calls it makes (`_collection.count()`, `similarity_search_with_score(query,
k=6)`, `llm.invoke(prompt)`). -/
structure QueryEnv where
  ready : Bool
  countResult : Except String Nat
  searchResult : Except String (List (Doc × ℚ))
  llm : String → Except String String

/-- The relevance filter with its fallback (`rag.py` lines 190-195):
keep hits scoring below the threshold; if that removes everything, take the
first 4 hits by rank instead. -/
def relevantDocs (hits : List (Doc × ℚ)) : List Doc :=
  let rel := (hits.filter fun h => decide (h.2 < RELEVANCE_THRESHOLD)).map Prod.fst
  if rel.isEmpty then (hits.take 4).map Prod.fst else rel

/-- The context chunks actually used for answer generation: the loop at
`rag.py` line 205 runs over `relevant_docs[:5]`. -/
def contextDocs (hits : List (Doc × ℚ)) : List Doc := (relevantDocs hits).take 5

/-- The source label one context chunk contributes (`rag.py` lines 206-210). -/
def sourceLabel (d : Doc) : String :=
  let source_name := (d.metadata "source").getD "Unknown"
  let file_type := (d.metadata "file_type").getD ""
  if file_type ≠ "" then source_name ++ " (" ++ file_type ++ ")" else source_name

/-- Lexicographic comparison of character lists by Unicode code point — the
order Python's `sorted` uses on `str`. -/
def strLeb : List Char → List Char → Bool
  | [], _ => true
  | _ :: _, [] => false
  | a :: s, b :: t =>
    if a.val.toNat < b.val.toNat then true
    else if b.val.toNat < a.val.toNat then false
    else strLeb s t

/-- Python's `<=` on strings. -/
def strLe (a b : String) : Prop := strLeb a.data b.data = true

instance : DecidableRel strLe := fun a b => inferInstanceAs (Decidable (_ = true))

theorem strLeb_total : ∀ s t, strLeb s t = true ∨ strLeb t s = true
  | [], _ => .inl rfl
  | _ :: _, [] => .inr rfl
  | x :: s, y :: t => by
    by_cases hxy : x.val.toNat < y.val.toNat
    · left; simp [strLeb, hxy]
    · by_cases hyx : y.val.toNat < x.val.toNat
      · right; simp [strLeb, hyx]
      · rcases strLeb_total s t with h | h
        · left; simp [strLeb, hxy, hyx, h]
        · right; simp [strLeb, hyx, hxy, h]

theorem strLeb_trans : ∀ s t u, strLeb s t = true → strLeb t u = true →
    strLeb s u = true
  | [], _, _, _, _ => rfl
  | _ :: _, [], _, hst, _ => by simp [strLeb] at hst
  | _ :: _, _ :: _, [], _, htu => by simp [strLeb] at htu
  | x :: s, y :: t, z :: u, hst, htu => by
    simp only [strLeb] at hst htu ⊢
    by_cases hxy : x.val.toNat < y.val.toNat
    · by_cases hyz : y.val.toNat < z.val.toNat
      · simp [show x.val.toNat < z.val.toNat by omega]
      · by_cases hzy : z.val.toNat < y.val.toNat
        · rw [if_neg hyz, if_pos hzy] at htu; exact absurd htu (by simp)
        · simp [show x.val.toNat < z.val.toNat by omega]
    · by_cases hyx : y.val.toNat < x.val.toNat
      · rw [if_neg hxy, if_pos hyx] at hst; exact absurd hst (by simp)
      · by_cases hyz : y.val.toNat < z.val.toNat
        · simp [show x.val.toNat < z.val.toNat by omega]
        · by_cases hzy : z.val.toNat < y.val.toNat
          · rw [if_neg hyz, if_pos hzy] at htu; exact absurd htu (by simp)
          · rw [if_neg hxy, if_neg hyx] at hst
            rw [if_neg hyz, if_neg hzy] at htu
            rw [if_neg (by omega : ¬x.val.toNat < z.val.toNat),
                if_neg (by omega : ¬z.val.toNat < x.val.toNat)]
            exact strLeb_trans s t u hst htu

instance : IsTotal String strLe := ⟨fun a b => strLeb_total a.data b.data⟩

instance : IsTrans String strLe := ⟨fun a b c => strLeb_trans a.data b.data c.data⟩

/-- The deduplicated, lexicographically sorted source labels of the context
chunks: Python's `sorted(sources)` where `sources` is the set built at
`rag.py` line 210. -/
def sortedSources (docs : List Doc) : List String :=
  List.insertionSort strLe ((docs.map sourceLabel).dedup)

/-- `formatted_sources` (`rag.py` line 237). -/
def formatSources (docs : List Doc) : String :=
  String.intercalate "\n" ((sortedSources docs).map fun src => "- " ++ src)

/-- The numbered document blocks joined into the prompt context
(`rag.py` lines 202-212). -/
def contextBlock (ctx : List Doc) : String :=
  String.intercalate "\n" (ctx.enum.map fun p =>
    "[Document " ++ toString (p.1 + 1) ++ ": " ++
      ((p.2.metadata "source").getD "Unknown") ++ "]\n" ++
      p.2.page_content ++ "\n")

/-- The grounding prompt (`rag.py` lines 215-230). -/
def buildPrompt (query : String) (ctx : List Doc) : String :=
  "You are an intelligent document assistant. Answer the question using ONLY the information from the provided documents.\n\nDOCUMENTS:\n"
    ++ contextBlock ctx
    ++ "\n\nQUESTION: " ++ query
    ++ "\n\nINSTRUCTIONS:\n- Provide a clear, detailed answer based solely on the document content\n- If the documents contain the information, give a comprehensive response\n- Include specific details, numbers, or facts from the documents when relevant\n- If the information is not in the documents, clearly state: \"This information is not available in the uploaded documents\"\n- Do not make assumptions or add information not present in the documents\n- If multiple documents discuss the topic, synthesize the information\n\nANSWER:"

/-- Python `str.strip()`: remove leading and trailing whitespace. -/
def pyStrip (s : String) : String :=
  ⟨((s.data.dropWhile Char.isWhitespace).reverse.dropWhile Char.isWhitespace).reverse⟩

/-- `generate_answer` (`rag.py` lines 155-243).  An `Except.error` models a
raised exception escaping the function; `Except.ok (answer, sources)` models
the returned pair.  A failing `count()` call is swallowed by the
`try/except` at lines 164-174 and the function proceeds to retrieval. -/
def genAnswer (env : QueryEnv) (query : String) : Except PyExn (String × String) :=
  if env.ready = false then
    .error ⟨"RuntimeError", "Knowledge base not initialized. Upload documents first."⟩
  else match env.countResult, env.searchResult with
    | .ok 0, _ => .ok ("Knowledge base is empty. Please upload documents first.", "")
    | _, srch =>
    match srch with
    | .error e => .ok ("Error searching knowledge base: " ++ e, "")
    | .ok hits =>
      if hits.isEmpty then
        .ok ("No relevant information found for your query. Try rephrasing or upload more documents.", "")
      else
        let ctx := contextDocs hits
        match env.llm (buildPrompt query ctx) with
        | .ok content => .ok (pyStrip content, formatSources ctx)
        | .error e => .ok ("Error generating answer: " ++ e, "")

/-! ### Driving layer: the `/v1/query` handler (`api.py` lines 169-190) -/

/-- Python's substring test `pat in s`. -/
def containsSub (pat : List Char) : List Char → Bool
  | [] => pat.isEmpty
  | a :: t => leadMatch pat (a :: t) || containsSub pat t

/-- Outcome of one HTTP handler call: a 200 response body, or an
`HTTPException` with a status code and detail. -/
inductive ApiResult where
  | ok (answer sources confidence : String)
  | httpError (status : Nat) (detail : String)
deriving DecidableEq

/-- `query_documents` (`api.py` lines 169-190): empty-query guard, the call
into `rag.generate_answer`, the confidence heuristic, and the two `except`
arms (`RuntimeError` becomes HTTP 400, anything else HTTP 500). -/
def queryDocuments (env : QueryEnv) (query : String) : ApiResult :=
  if query = "" ∨ pyStrip query = "" then .httpError 400 "Query cannot be empty"
  else
    match genAnswer env query with
    | .ok (answer, sources) =>
      .ok answer sources
        (if sources ≠ "" ∧ containsSub "No sources".data sources.data = false
         then "high" else "low")
    | .error e =>
      if e.cls = "RuntimeError" then .httpError 400 e.msg
      else .httpError 500 ("Query error: " ++ e.msg)

/-! ## Claim theorems -/

/-- C2 counterexample: the claim asserts that an unsupported extension fails
with an `UnsupportedFileType` error distinguishable from the `LoadError` of
an extraction failure.  In `load_document` the unsupported-extension
`ValueError` is raised inside the `try` block, so the blanket
`except Exception` at line 91 swallows it and re-raises the same bare
`Exception` class used for extraction failures: the two outcomes below carry
the identical error class, differing only in message text. -/
theorem c2_counterexample :
    loadDocument "a.xyz" ".xyz" (Except.ok []) =
      Except.error ⟨"Exception", "Error loading a.xyz: Unsupported file type: .xyz"⟩ ∧
    loadDocument "b.txt" ".txt" (Except.error "parse error") =
      Except.error ⟨"Exception", "Error loading b.txt: parse error"⟩ ∧
    exnClass (loadDocument "a.xyz" ".xyz" (Except.ok [])) =
      exnClass (loadDocument "b.txt" ".txt" (Except.error "parse error")) :=
  ⟨rfl, rfl, rfl⟩

/-- C2 amended: for every file path whose (lower-cased) extension is not one
of `.pdf .csv .xlsx .docx .txt`, `load_document` fails with the generic
`Exception` class whose message embeds the offending extension
(`"Error loading NAME: Unsupported file type: EXT"`); an extraction failure
on a supported type fails with that same generic class (message
`"Error loading NAME: CAUSE"`), so callers can tell the two apart only by
message content, not by error type. -/
theorem c2_generic_exception_wrapping (name suffix : String)
    (hunsup : strLower suffix ∉ supportedExts) :
    (∀ loaderResult, loadDocument name suffix loaderResult =
      Except.error ⟨"Exception",
        "Error loading " ++ name ++ ": " ++ "Unsupported file type: " ++ strLower suffix⟩)
    ∧ ∀ (name₂ suffix₂ cause : String), strLower suffix₂ ∈ supportedExts →
        loadDocument name₂ suffix₂ (Except.error cause) =
          Except.error ⟨"Exception", "Error loading " ++ name₂ ++ ": " ++ cause⟩ := by
  constructor
  · intro loaderResult
    simp [loadDocument, hunsup]
  · intro name₂ suffix₂ cause hsup
    simp [loadDocument, hsup]

/-- C2 witness: `.xyz` is not supported, `.txt` is, and the amended behavior
holds at those inputs. -/
theorem c2_witness :
    strLower ".xyz" ∉ supportedExts ∧ strLower ".txt" ∈ supportedExts ∧
    loadDocument "a.xyz" ".xyz" (Except.ok []) =
      Except.error ⟨"Exception",
        "Error loading " ++ "a.xyz" ++ ": " ++ "Unsupported file type: " ++ strLower ".xyz"⟩ :=
  ⟨by decide, by decide,
    (c2_generic_exception_wrapping "a.xyz" ".xyz" (by decide)).1 (Except.ok [])⟩

/-- C7: whenever `load_document` succeeds, every returned segment's metadata
has `source` mapped to the file's name and `file_type` mapped to the
lower-cased extension — the stamping loop at lines 83-87 runs after the
type-specific extraction and overwrites whatever the extractor put there. -/
theorem c7_metadata_stamping (name suffix : String) (docs stamped : List Doc)
    (hload : loadDocument name suffix (Except.ok docs) = Except.ok stamped) :
    ∀ d ∈ stamped, d.metadata "source" = some name ∧
      d.metadata "file_type" = some (strLower suffix) := by
  by_cases hs : strLower suffix ∈ supportedExts
  · simp only [loadDocument, if_pos hs, Except.ok.injEq] at hload
    subst hload
    intro d hd
    obtain ⟨d₀, _, rfl⟩ := List.mem_map.mp hd
    exact ⟨by simp [stampMeta], by simp [stampMeta]⟩
  · simp [loadDocument, if_neg hs] at hload

/-- C7 witness: stamping observed on a concrete `.PDF` file whose extractor
set its own `source`. -/
theorem c7_witness :
    (loadDocument "r.PDF" ".PDF"
        (Except.ok [⟨"text", fun k => if k = "source" then some "elsewhere" else none⟩]) =
      Except.ok [stampMeta "r.PDF" ".pdf" ⟨"text", fun k => if k = "source" then some "elsewhere" else none⟩]) ∧
    ∀ d ∈ [stampMeta "r.PDF" ".pdf"
            (⟨"text", fun k => if k = "source" then some "elsewhere" else none⟩ : Doc)],
      d.metadata "source" = some "r.PDF" ∧ d.metadata "file_type" = some (strLower ".PDF") :=
  ⟨rfl, c7_metadata_stamping "r.PDF" ".PDF"
    [⟨"text", fun k => if k = "source" then some "elsewhere" else none⟩] _ rfl⟩

/-- C3: with an initialized store whose collection count is 0,
`generate_answer` returns the empty-knowledge-base answer with empty sources
instead of raising. -/
theorem c3_empty_store_message (env : QueryEnv) (q : String)
    (hready : env.ready = true) (hcount : env.countResult = Except.ok 0) :
    genAnswer env q =
      Except.ok ("Knowledge base is empty. Please upload documents first.", "") := by
  unfold genAnswer
  rw [hready, hcount]
  simp

/-- C3 witness: a concrete initialized-but-empty environment. -/
theorem c3_witness :
    genAnswer ⟨true, Except.ok 0, Except.ok [], fun _ => Except.ok "hi"⟩ "q" =
      Except.ok ("Knowledge base is empty. Please upload documents first.", "") :=
  c3_empty_store_message ⟨true, Except.ok 0, Except.ok [], fun _ => Except.ok "hi"⟩ "q" rfl rfl

/-- C4: when context chunks were selected (the search returned a non-empty
hit list) and the model call fails, `generate_answer` returns the
error-describing answer string with empty sources; the failure never
escapes as a raised exception. -/
theorem c4_llm_failure_degrades (env : QueryEnv) (q e : String)
    (hits : List (Doc × ℚ))
    (hready : env.ready = true) (hcount : env.countResult ≠ Except.ok 0)
    (hsearch : env.searchResult = Except.ok hits) (hne : hits ≠ [])
    (hllm : env.llm (buildPrompt q (contextDocs hits)) = Except.error e) :
    genAnswer env q = Except.ok ("Error generating answer: " ++ e, "") := by
  unfold genAnswer
  rw [hready, hsearch]
  rcases hc : env.countResult with ce | n
  · cases hits with
    | nil => exact absurd rfl hne
    | cons a t => simp [hllm]
  · match n, hc with
    | 0, hc => exact absurd hc hcount
    | n + 1, hc =>
      cases hits with
      | nil => exact absurd rfl hne
      | cons a t => simp [hllm]

/-- C4 witness: a concrete environment whose model call fails. -/
theorem c4_witness :
    genAnswer
      ⟨true, Except.ok 3,
        Except.ok [(⟨"c", fun _ => none⟩, 1)], fun _ => Except.error "rate limit"⟩ "q" =
      Except.ok ("Error generating answer: " ++ "rate limit", "") :=
  c4_llm_failure_degrades _ "q" "rate limit" [(⟨"c", fun _ => none⟩, 1)] rfl
    (by intro h; exact absurd (Except.ok.injEq .. ▸ congrArg id h) (by simp))
    rfl (by simp) rfl

/-- Once the store is initialized, `generate_answer` never raises: every
query-time failure mode (count failure, search failure, no hits, model
failure) degrades to a returned answer pair. -/
theorem genAnswer_ready_no_raise (env : QueryEnv) (q : String)
    (hready : env.ready = true) :
    ∃ ans src, genAnswer env q = Except.ok (ans, src) := by
  obtain ⟨ready, cr, sr, llmf⟩ := env
  simp only at hready
  subst hready
  rcases cr with ce | n
  · rcases sr with se | hits
    · exact ⟨"Error searching knowledge base: " ++ se, "", by simp [genAnswer]⟩
    · cases hits with
      | nil =>
        exact ⟨"No relevant information found for your query. Try rephrasing or upload more documents.",
          "", by simp [genAnswer]⟩
      | cons a t =>
        rcases hl : llmf (buildPrompt q (contextDocs (a :: t))) with le | content
        · exact ⟨"Error generating answer: " ++ le, "", by simp [genAnswer, hl]⟩
        · exact ⟨pyStrip content, formatSources (contextDocs (a :: t)), by simp [genAnswer, hl]⟩
  · cases n with
    | zero => exact ⟨"Knowledge base is empty. Please upload documents first.", "", by simp [genAnswer]⟩
    | succ n =>
      rcases sr with se | hits
      · exact ⟨"Error searching knowledge base: " ++ se, "", by simp [genAnswer]⟩
      · cases hits with
        | nil =>
          exact ⟨"No relevant information found for your query. Try rephrasing or upload more documents.",
            "", by simp [genAnswer]⟩
        | cons a t =>
          rcases hl : llmf (buildPrompt q (contextDocs (a :: t))) with le | content
          · exact ⟨"Error generating answer: " ++ le, "", by simp [genAnswer, hl]⟩
          · exact ⟨pyStrip content, formatSources (contextDocs (a :: t)), by simp [genAnswer, hl]⟩

/-- C8: querying an uninitialized store raises `RuntimeError`, which the
`/v1/query` handler's dedicated `except RuntimeError` arm converts into a
structured HTTP 400 carrying the "upload documents first" message — while
every query against an initialized store comes back as an answer pair (the
degraded-text fallback), so the uninitialized state is distinguishable from
all other query-time failures. -/
theorem c8_not_initialized_distinct (env : QueryEnv) (q : String)
    (hready : env.ready = false) (hq : pyStrip q ≠ "") :
    genAnswer env q =
      Except.error ⟨"RuntimeError", "Knowledge base not initialized. Upload documents first."⟩ ∧
    queryDocuments env q =
      ApiResult.httpError 400 "Knowledge base not initialized. Upload documents first." ∧
    ∀ (env₂ : QueryEnv) (q₂ : String), env₂.ready = true →
      ∃ ans src, genAnswer env₂ q₂ = Except.ok (ans, src) := by
  have hgen : genAnswer env q =
      Except.error ⟨"RuntimeError", "Knowledge base not initialized. Upload documents first."⟩ := by
    unfold genAnswer
    rw [hready]
    simp
  refine ⟨hgen, ?_, fun env₂ q₂ h₂ => genAnswer_ready_no_raise env₂ q₂ h₂⟩
  have hq' : ¬(q = "" ∨ pyStrip q = "") := by
    rintro (rfl | h)
    · exact hq rfl
    · exact hq h
  unfold queryDocuments
  rw [if_neg hq', hgen]
  simp

/-- C8 witness: a concrete uninitialized environment and non-blank query. -/
theorem c8_witness :
    queryDocuments ⟨false, Except.error "nope", Except.error "nope", fun _ => Except.error "nope"⟩
        "hello" =
      ApiResult.httpError 400 "Knowledge base not initialized. Upload documents first." :=
  (c8_not_initialized_distinct
    ⟨false, Except.error "nope", Except.error "nope", fun _ => Except.error "nope"⟩
    "hello" rfl (by decide)).2.1

/-- C6: the source labels attached to an answer are built per context chunk
as `"SOURCE (FILE_TYPE)"` when the chunk's `file_type` metadata is non-empty
and as `"SOURCE"` otherwise, and the returned label list contains each label
exactly once (set semantics) in lexicographically sorted order: a label
appears iff some context chunk produces it. -/
theorem c6_source_labels (docs : List Doc) :
    (sortedSources docs).Nodup ∧
    (sortedSources docs).Sorted strLe ∧
    ∀ l : String, l ∈ sortedSources docs ↔ ∃ d ∈ docs, sourceLabel d = l := by
  refine ⟨?_, List.sorted_insertionSort _ _, ?_⟩
  · exact ((List.perm_insertionSort _ _).nodup_iff).mpr (List.nodup_dedup _)
  · intro l
    unfold sortedSources
    rw [(List.perm_insertionSort _ _).mem_iff, List.mem_dedup, List.mem_map]

/-- C6 witness: two chunks of the same file yield one label, sorted with a
second file's label; the label of the chunk without `file_type` is its bare
source. -/
theorem c6_witness :
    (sortedSources
        [⟨"c1", fun k => if k = "source" then some "b.pdf" else
            if k = "file_type" then some ".pdf" else none⟩,
         ⟨"c2", fun k => if k = "source" then some "b.pdf" else
            if k = "file_type" then some ".pdf" else none⟩,
         ⟨"c3", fun k => if k = "source" then some "a.txt" else none⟩]).Nodup ∧
    sortedSources
        [⟨"c1", fun k => if k = "source" then some "b.pdf" else
            if k = "file_type" then some ".pdf" else none⟩,
         ⟨"c2", fun k => if k = "source" then some "b.pdf" else
            if k = "file_type" then some ".pdf" else none⟩,
         ⟨"c3", fun k => if k = "source" then some "a.txt" else none⟩] =
      ["a.txt", "b.pdf (.pdf)"] :=
  ⟨(c6_source_labels _).1, by rfl⟩

/-- C1: from a non-empty hit list, the context chunks are a rank-preserving
subsequence of the hits; they are the first five hits scoring strictly below
the 2.5 threshold when any hit does, and the first four hits by rank when
none does; and `generate_answer` builds its prompt and its source list from
exactly these chunks. -/
theorem c1_context_selection (hits : List (Doc × ℚ)) (hne : hits ≠ []) :
    (contextDocs hits).Sublist (hits.map Prod.fst) ∧
    ((∃ h ∈ hits, h.2 < RELEVANCE_THRESHOLD) →
      contextDocs hits =
        ((hits.filter fun h => decide (h.2 < RELEVANCE_THRESHOLD)).map Prod.fst).take 5) ∧
    ((∀ h ∈ hits, ¬h.2 < RELEVANCE_THRESHOLD) →
      contextDocs hits = (hits.take 4).map Prod.fst) ∧
    ∀ (env : QueryEnv) (q ans : String), env.ready = true →
      env.countResult ≠ Except.ok 0 → env.searchResult = Except.ok hits →
      env.llm (buildPrompt q (contextDocs hits)) = Except.ok ans →
      genAnswer env q = Except.ok (pyStrip ans, formatSources (contextDocs hits)) := by
  refine ⟨?_, ?_, ?_, ?_⟩
  · have h1 : (relevantDocs hits).Sublist (hits.map Prod.fst) := by
      simp only [relevantDocs]
      split
      · exact (List.take_sublist 4 hits).map Prod.fst
      · exact (List.filter_sublist hits).map Prod.fst
    exact (List.take_sublist 5 _).trans h1
  · rintro ⟨h, hmem, hlt⟩
    have hfil : ¬((hits.filter fun x => decide (x.2 < RELEVANCE_THRESHOLD)).map Prod.fst).isEmpty = true := by
      rw [List.isEmpty_iff, List.map_eq_nil_iff]
      intro hnil
      exact absurd hlt (by simpa using List.filter_eq_nil_iff.mp hnil h hmem)
    simp only [contextDocs, relevantDocs, if_neg hfil]
  · intro hall
    have hfil : hits.filter (fun x => decide (x.2 < RELEVANCE_THRESHOLD)) = [] :=
      List.filter_eq_nil_iff.mpr (fun a ha => by simpa using hall a ha)
    simp only [contextDocs, relevantDocs, hfil, List.map_nil, List.isEmpty_nil, if_pos]
    apply List.take_of_length_le
    rw [List.length_map, List.length_take]
    omega
  · intro env q ans hready hcount hsearch hllm
    unfold genAnswer
    rw [hready, hsearch]
    rcases hc : env.countResult with ce | n
    · cases hits with
      | nil => exact absurd rfl hne
      | cons a t => simp [hllm]
    · match n, hc with
      | 0, hc => exact absurd hc hcount
      | n + 1, hc =>
        cases hits with
        | nil => exact absurd rfl hne
        | cons a t => simp [hllm]

/-- C1 witness: two hits, one under the threshold; the selected context is
the below-threshold hit alone. -/
theorem c1_witness :
    ([((⟨"near", fun _ => none⟩ : Doc), (1 : ℚ)), (⟨"far", fun _ => none⟩, 3)] ≠
        ([] : List (Doc × ℚ))) ∧
    contextDocs [((⟨"near", fun _ => none⟩ : Doc), (1 : ℚ)), (⟨"far", fun _ => none⟩, 3)] =
      ((([((⟨"near", fun _ => none⟩ : Doc), (1 : ℚ)), (⟨"far", fun _ => none⟩, 3)]).filter
          fun h => decide (h.2 < RELEVANCE_THRESHOLD)).map Prod.fst).take 5 :=
  ⟨by simp,
    (c1_context_selection _ (by simp)).2.1
      ⟨((⟨"near", fun _ => none⟩ : Doc), (1 : ℚ)), by simp,
        by norm_num [RELEVANCE_THRESHOLD]⟩⟩

/-- A file whose load fails contributes no segments. -/
theorem loadedDocs_eq_nil_of_error (f : IngestFile) (e : PyExn)
    (he : loadResult f = Except.error e) : loadedDocs f = [] := by
  simp [loadedDocs, he]

/-- When every file in the batch fails to load, `process_documents` runs the
whole per-file loop, ends the stream with the terminal failure message, and
leaves the collection empty (it was reset up front and nothing was added). -/
theorem processDocuments_all_fail (files : List IngestFile)
    (storeResult : Except String Unit) (store₀ : List Doc)
    (hfail : ∀ f ∈ files, ∃ e, loadResult f = Except.error e) :
    processDocuments files storeResult store₀ =
      (["Initializing AI components...", "Clearing previous knowledge base...",
        "Loading " ++ toString files.length ++ " document(s)..."] ++
        files.map fileMsg ++ ["✗ No documents loaded successfully"], []) := by
  have hnil : files.flatMap loadedDocs = [] := by
    apply List.flatMap_eq_nil_iff.mpr
    intro f hf
    obtain ⟨e, he⟩ := hfail f hf
    exact loadedDocs_eq_nil_of_error f e he
  simp [processDocuments, hnil]

/-- The progress stream always starts with the three header messages
followed by one message per file, in batch order. -/
theorem processDocuments_stream_shape (files : List IngestFile)
    (storeResult : Except String Unit) (store₀ : List Doc) :
    (["Initializing AI components...", "Clearing previous knowledge base...",
      "Loading " ++ toString files.length ++ " document(s)..."] ++ files.map fileMsg)
      <+: (processDocuments files storeResult store₀).1 := by
  simp only [processDocuments]
  split
  · simp [List.cons_prefix_cons, List.prefix_append]
  · split
    · simp [List.cons_prefix_cons, List.prefix_append, List.append_assoc]
    · split <;>
        simp [List.cons_prefix_cons, List.prefix_append, List.append_assoc]

/-- C5: batch ingestion recovers per-file load failures locally — the loop
emits a progress message for every file in the batch (in particular a `✗`
failure marker for each file whose load fails) and continues with the rest;
if no file loads (or chunking produces nothing) the stream ends with the
corresponding terminal failure message and the call returns instead of
raising. -/
theorem c5_ingestion_failure_recovery (files : List IngestFile)
    (storeResult : Except String Unit) (store₀ : List Doc) :
    (∀ f ∈ files, fileMsg f ∈ (processDocuments files storeResult store₀).1) ∧
    (∀ f ∈ files, ∀ e, loadResult f = Except.error e →
      ("✗ Failed to load " ++ f.name ++ ": " ++ e.msg) ∈
        (processDocuments files storeResult store₀).1) ∧
    ((∀ f ∈ files, ∃ e, loadResult f = Except.error e) →
      (processDocuments files storeResult store₀).1.getLast? =
        some "✗ No documents loaded successfully") ∧
    (files.flatMap loadedDocs ≠ [] →
      splitDocuments (files.flatMap loadedDocs) = [] →
      (processDocuments files storeResult store₀).1.getLast? =
        some "✗ Failed to create text chunks") := by
  have hmem : ∀ f ∈ files, fileMsg f ∈ (processDocuments files storeResult store₀).1 := by
    intro f hf
    refine (processDocuments_stream_shape files storeResult store₀).subset ?_
    exact List.mem_append_right _ (List.mem_map_of_mem fileMsg hf)
  refine ⟨hmem, ?_, ?_, ?_⟩
  · intro f hf e he
    have : fileMsg f = "✗ Failed to load " ++ f.name ++ ": " ++ e.msg := by
      simp [fileMsg, he]
    exact this ▸ hmem f hf
  · intro hfail
    rw [processDocuments_all_fail files storeResult store₀ hfail]
    exact List.getLast?_concat _
  · intro hne hchunks
    simp only [processDocuments]
    rw [if_neg (by simpa using hne), if_pos (by simpa using hchunks)]
    exact List.getLast?_concat _

/-- C5 witness: a two-file batch whose first file fails and whose second file
succeeds: the failure marker and the success message are both in the stream. -/
theorem c5_witness :
    ("✗ Failed to load " ++ "bad.csv" ++ ": " ++ "Error loading bad.csv: corrupt") ∈
      (processDocuments
        [⟨"bad.csv", ".csv", Except.error "corrupt"⟩,
         ⟨"ok.txt", ".txt", Except.ok [⟨"hello world", fun _ => none⟩]⟩]
        (Except.ok ()) []).1 ∧
    fileMsg ⟨"ok.txt", ".txt", Except.ok [⟨"hello world", fun _ => none⟩]⟩ ∈
      (processDocuments
        [⟨"bad.csv", ".csv", Except.error "corrupt"⟩,
         ⟨"ok.txt", ".txt", Except.ok [⟨"hello world", fun _ => none⟩]⟩]
        (Except.ok ()) []).1 :=
  ⟨(c5_ingestion_failure_recovery _ (Except.ok ()) []).2.1
      ⟨"bad.csv", ".csv", Except.error "corrupt"⟩ (by simp)
      ⟨"Exception", "Error loading bad.csv: corrupt"⟩ (by rfl),
    (c5_ingestion_failure_recovery _ (Except.ok ()) []).1
      ⟨"ok.txt", ".txt", Except.ok [⟨"hello world", fun _ => none⟩]⟩ (by simp)⟩

/-- C10 (implicit): `process_documents` resets the collection before any load
is attempted, so a batch in which every file fails to load ends with an empty
collection — whatever a previous ingestion call had stored is destroyed even
though this call stored nothing; and the call's outcome is entirely
independent of the collection's prior contents (uploads are never
cumulative). -/
theorem c10_reset_destroys_previous (files : List IngestFile)
    (storeResult : Except String Unit) (store₀ : List Doc)
    (hfail : ∀ f ∈ files, ∃ e, loadResult f = Except.error e) :
    (processDocuments files storeResult store₀).2 = [] ∧
    ∀ store₁, processDocuments files storeResult store₀ =
      processDocuments files storeResult store₁ :=
  ⟨by rw [processDocuments_all_fail files storeResult store₀ hfail], fun _ => rfl⟩

/-- C10 witness: one failing file, a previously non-empty collection: the
collection ends empty. -/
theorem c10_witness :
    (processDocuments [⟨"bad.pdf", ".pdf", Except.error "corrupt"⟩] (Except.ok ())
        [⟨"old chunk", fun _ => none⟩]).2 = [] :=
  (c10_reset_destroys_previous [⟨"bad.pdf", ".pdf", Except.error "corrupt"⟩]
    (Except.ok ()) [⟨"old chunk", fun _ => none⟩]
    (fun f hf => by
      rw [List.mem_singleton.mp hf]
      exact ⟨⟨"Exception", "Error loading bad.pdf: corrupt"⟩, rfl⟩)).1

/-! ### Chunker invariant (claim C9) -/

theorem leadMatch_iff (s : List Char) : ∀ l, leadMatch s l = true ↔ s <+: l := by
  induction s with
  | nil => intro l; simp [leadMatch]
  | cons a s ih =>
    intro l
    cases l with
    | nil => simp [leadMatch]
    | cons b t => rw [List.cons_prefix_cons]; simp [leadMatch, ih]

/-- Every piece produced by the scanner is an infix of the stream it was
scanning (scanned prefix `acc.reverse` followed by the rest `l`). -/
theorem splitOnAux_contained (sep : List Char) :
    ∀ l acc, ∀ p ∈ splitOnAux sep l acc, p <:+: acc.reverse ++ l := by
  intro l acc
  induction l, acc using splitOnAux.induct sep with
  | case1 acc =>
    intro p hp
    simp only [splitOnAux, List.mem_singleton] at hp
    subst hp
    rw [List.append_nil]
  | case2 a l acc h ih =>
    intro p hp
    simp only [splitOnAux, dif_pos h, List.mem_cons] at hp
    rcases hp with rfl | hp'
    · exact ⟨[], a :: l, by simp⟩
    · have h1 : p <:+: List.drop sep.length (a :: l) := by simpa using ih p hp'
      exact (h1.trans (List.drop_suffix _ _).isInfix).trans ⟨acc.reverse, [], by simp⟩
  | case3 a l acc h ih =>
    intro p hp
    simp only [splitOnAux, dif_neg h] at hp
    have := ih p hp
    simpa [List.append_assoc] using this

/-- The scanner's pieces contain no occurrence of the separator, given that
no occurrence of the separator in the remaining stream starts strictly
inside the already-scanned prefix. -/
theorem splitOnAux_no_sep (sep : List Char) (hsep : sep ≠ []) :
    ∀ l acc, (∀ u v, acc.reverse ++ l = u ++ sep ++ v → acc.length ≤ u.length) →
      ∀ p ∈ splitOnAux sep l acc, ¬sep <:+: p := by
  have hs : 0 < sep.length := List.length_pos.mpr hsep
  intro l acc
  induction l, acc using splitOnAux.induct sep with
  | case1 acc =>
    intro hinv p hp hinf
    simp only [splitOnAux, List.mem_singleton] at hp
    subst hp
    obtain ⟨u, v, huv⟩ := hinf
    have hle := hinv u v (by rw [List.append_nil]; exact huv.symm)
    have hlen := congrArg List.length huv
    simp [List.length_append] at hlen
    omega
  | case2 a l acc h ih =>
    intro hinv p hp hinf
    simp only [splitOnAux, dif_pos h, List.mem_cons] at hp
    rcases hp with rfl | hp'
    · obtain ⟨u, v, huv⟩ := hinf
      have hle := hinv u (v ++ (a :: l)) (by rw [← huv]; simp [List.append_assoc])
      have hlen := congrArg List.length huv
      simp [List.length_append] at hlen
      omega
    · exact ih (fun u v _ => Nat.zero_le _) p hp' hinf
  | case3 a l acc h ih =>
    intro hinv p hp hinf
    simp only [splitOnAux, dif_neg h] at hp
    refine ih ?_ p hp hinf
    intro u v huv
    have hstream : acc.reverse ++ (a :: l) = u ++ sep ++ v := by
      simpa [List.append_assoc] using huv
    have hge := hinv u v hstream
    rcases Nat.lt_or_ge acc.length u.length with hlt | hge2
    · simpa using hlt
    · exfalso
      have heqlen : acc.reverse.length = u.length := by simp; omega
      have hsplit := List.append_inj (by simpa [List.append_assoc] using hstream) heqlen
      have : sep <+: a :: l := ⟨v, hsplit.2.symm⟩
      exact h ⟨hsep, (leadMatch_iff sep (a :: l)).mpr this⟩

theorem splitOn_contained (sep text : List Char) : ∀ p ∈ splitOn sep text, p <:+: text := by
  intro p hp
  simpa using splitOnAux_contained sep text [] p hp

theorem splitOn_no_sep (sep : List Char) (hsep : sep ≠ []) (text : List Char) :
    ∀ p ∈ splitOn sep text, ¬sep <:+: p :=
  splitOnAux_no_sep sep hsep text [] (fun _ _ _ => Nat.zero_le _)

/-- Every chunk the recursive splitter emits is an infix of its input text. -/
theorem recSplit_contained : ∀ (seps : List (List Char)) (text : List Char),
    ∀ c ∈ recSplit seps text, c <:+: text
  | [], text => by
    intro c hc
    simp only [recSplit, List.mem_singleton] at hc
    subst hc
    exact List.infix_rfl
  | s :: rest, text => by
    intro c hc
    simp only [recSplit] at hc
    by_cases ht : text.length ≤ CHUNK_SIZE
    · rw [if_pos ht] at hc
      simp only [List.mem_singleton] at hc
      subst hc
      exact List.infix_rfl
    · rw [if_neg ht] at hc
      simp only [List.mem_flatten, List.mem_map] at hc
      obtain ⟨_, ⟨p, hp, rfl⟩, hcp⟩ := hc
      exact (recSplit_contained rest p c hcp).trans (splitOn_contained s text p hp)

/-- Every chunk the recursive splitter emits either fits in `CHUNK_SIZE` or
contains no occurrence of any separator of the hierarchy (it is an
unsplittable unit). -/
theorem recSplit_sound : ∀ (seps : List (List Char)), (∀ s ∈ seps, s ≠ []) →
    ∀ (text : List Char), ∀ c ∈ recSplit seps text,
      c.length ≤ CHUNK_SIZE ∨ ∀ s ∈ seps, ¬s <:+: c
  | [], _, text => by
    intro c _
    right
    intro s hs
    exact absurd hs (List.not_mem_nil s)
  | s :: rest, hne, text => by
    intro c hc
    simp only [recSplit] at hc
    by_cases ht : text.length ≤ CHUNK_SIZE
    · rw [if_pos ht] at hc
      simp only [List.mem_singleton] at hc
      subst hc
      exact .inl ht
    · rw [if_neg ht] at hc
      simp only [List.mem_flatten, List.mem_map] at hc
      obtain ⟨_, ⟨p, hp, rfl⟩, hcp⟩ := hc
      rcases recSplit_sound rest (fun t htm => hne t (List.mem_cons_of_mem s htm)) p c hcp
        with hle | hfar
      · exact .inl hle
      · right
        intro t htm
        rcases List.mem_cons.mp htm with rfl | htm'
        · intro hinf
          exact splitOn_no_sep t (hne t (List.mem_cons_self t rest)) text p hp
            (hinf.trans (recSplit_contained rest p c hcp))
        · exact hfar t htm'

theorem wTotal_append (w : List (List Char)) (d : List Char) :
    wTotal (w ++ [d]) = wTotal w + d.length := by
  simp [wTotal]

theorem flatten_length_eq_wTotal (w : List (List Char)) :
    w.flatten.length = wTotal w := by
  simp [wTotal]

/-- After popping, the retained window leaves room for the incoming piece
(or is empty). -/
theorem popWhile_bound (dlen : Nat) (hd : dlen ≤ CHUNK_SIZE) :
    ∀ w, wTotal (popWhile dlen w) + dlen ≤ CHUNK_SIZE ∨ popWhile dlen w = []
  | [] => .inr rfl
  | p :: ps => by
    simp only [popWhile]
    split
    · exact popWhile_bound dlen hd ps
    · rename_i hcond
      left
      omega

/-- Every chunk the merge loop emits either fits in `CHUNK_SIZE` or is one of
the (oversized) input pieces, passed through untouched. -/
theorem mergeLoop_sound : ∀ (ps w : List (List Char)), wTotal w ≤ CHUNK_SIZE →
    ∀ c ∈ mergeLoop ps w, c.length ≤ CHUNK_SIZE ∨ (CHUNK_SIZE < c.length ∧ c ∈ ps)
  | [], w => by
    intro hw c hc
    simp only [mergeLoop] at hc
    split at hc
    · exact absurd hc (List.not_mem_nil c)
    · simp only [List.mem_singleton] at hc
      subst hc
      left
      rw [flatten_length_eq_wTotal]
      exact hw
  | d :: ds, w => by
    intro hw c hc
    simp only [mergeLoop] at hc
    by_cases hdt : CHUNK_SIZE < d.length
    · rw [if_pos hdt] at hc
      rcases List.mem_append.mp hc with hc1 | hc2
      · left
        split at hc1
        · exact absurd hc1 (List.not_mem_nil c)
        · simp only [List.mem_singleton] at hc1
          subst hc1
          rw [flatten_length_eq_wTotal]
          exact hw
      · rcases List.mem_cons.mp hc2 with rfl | hc3
        · exact .inr ⟨hdt, List.mem_cons_self _ _⟩
        · rcases mergeLoop_sound ds [] (by simp [wTotal]) c hc3 with h | ⟨h1, h2⟩
          · exact .inl h
          · exact .inr ⟨h1, List.mem_cons_of_mem d h2⟩
    · rw [if_neg hdt] at hc
      by_cases hcond : CHUNK_SIZE < wTotal w + d.length ∧ w ≠ []
      · rw [if_pos hcond] at hc
        rcases List.mem_cons.mp hc with rfl | hc2
        · left
          rw [flatten_length_eq_wTotal]
          exact hw
        · have hw' : wTotal (popWhile d.length w ++ [d]) ≤ CHUNK_SIZE := by
            rw [wTotal_append]
            rcases popWhile_bound d.length (le_of_not_lt hdt) w with h | h
            · exact h
            · rw [h]
              simp only [wTotal, List.map_nil, List.sum_nil]
              omega
          rcases mergeLoop_sound ds _ hw' c hc2 with h | ⟨h1, h2⟩
          · exact .inl h
          · exact .inr ⟨h1, List.mem_cons_of_mem d h2⟩
      · rw [if_neg hcond] at hc
        have hw' : wTotal (w ++ [d]) ≤ CHUNK_SIZE := by
          rw [wTotal_append]
          by_cases hwnil : w = []
          · subst hwnil
            simp only [wTotal, List.map_nil, List.sum_nil]
            omega
          · have : ¬CHUNK_SIZE < wTotal w + d.length := fun hA => hcond ⟨hA, hwnil⟩
            omega
        rcases mergeLoop_sound ds _ hw' c hc with h | ⟨h1, h2⟩
        · exact .inl h
        · exact .inr ⟨h1, List.mem_cons_of_mem d h2⟩

/-- A chunk of one text either fits in `CHUNK_SIZE` or is an unsplittable
oversized unit contained in the text. -/
theorem chunkText_sound (text : List Char) :
    ∀ c ∈ chunkText text, c.length ≤ CHUNK_SIZE ∨
      (CHUNK_SIZE < c.length ∧ c <:+: text ∧ ∀ s ∈ SEPARATORS, ¬s <:+: c) := by
  intro c hc
  have hc' : c ∈ mergeLoop (recSplit SEPARATORS text) [] := (List.mem_filter.mp hc).1
  rcases mergeLoop_sound _ [] (by simp [wTotal]) c hc' with h | ⟨h1, h2⟩
  · exact .inl h
  · right
    refine ⟨h1, recSplit_contained SEPARATORS text c h2, ?_⟩
    rcases recSplit_sound SEPARATORS (by decide) text c h2 with h | h
    · omega
    · exact h

/-- C9: every chunk the chunker produces from a sequence of segments has at
most `CHUNK_SIZE = 1000` characters, except that a chunk may exceed the limit
only when it is a single unsplittable unit — an infix of its source segment
containing no occurrence of any separator of the hierarchy (paragraph break,
line break, sentence punctuation, clause punctuation, space). -/
theorem c9_chunk_size_invariant (docs : List Doc) :
    ∀ c ∈ splitDocuments docs, c.page_content.length ≤ CHUNK_SIZE ∨
      (CHUNK_SIZE < c.page_content.length ∧
        ∃ d ∈ docs, c.page_content.data <:+: d.page_content.data ∧
          ∀ s ∈ SEPARATORS, ¬s <:+: c.page_content.data) := by
  intro c hc
  simp only [splitDocuments, List.mem_flatMap, List.mem_map] at hc
  obtain ⟨d, hd, cs, hcs, rfl⟩ := hc
  rcases chunkText_sound d.page_content.data cs hcs with h | ⟨h1, h2, h3⟩
  · exact .inl h
  · exact .inr ⟨h1, d, hd, h2, h3⟩

/-- C9 witness: a single short segment is one chunk within the limit. -/
theorem c9_witness :
    ((⟨"hello world", fun _ => none⟩ : Doc) ∈
      splitDocuments [⟨"hello world", fun _ => none⟩]) ∧
    ((⟨"hello world", fun _ => none⟩ : Doc).page_content.length ≤ CHUNK_SIZE ∨
      (CHUNK_SIZE < (⟨"hello world", fun _ => none⟩ : Doc).page_content.length ∧
        ∃ d ∈ [(⟨"hello world", fun _ => none⟩ : Doc)],
          (⟨"hello world", fun _ => none⟩ : Doc).page_content.data <:+: d.page_content.data ∧
          ∀ s ∈ SEPARATORS,
            ¬s <:+: (⟨"hello world", fun _ => none⟩ : Doc).page_content.data)) := by
  have hmem : (⟨"hello world", fun _ => none⟩ : Doc) ∈
      splitDocuments [⟨"hello world", fun _ => none⟩] := by
    show (⟨"hello world", fun _ => none⟩ : Doc) ∈ [(⟨"hello world", fun _ => none⟩ : Doc)]
    exact List.mem_singleton.mpr rfl
  exact ⟨hmem, c9_chunk_size_invariant _ _ hmem⟩

end RagSpec
